import Mathlib

/-!
Verification of the PendingTickOptimizer core (src/PendingTickOptimizer.cpp):
a per-tick budgeting interceptor for Minecraft pending block ticks.

The embedding translates the two hooks and the classifier of the C++ source:
- `isPortalOnlyQueue` — the queue classifier (lines 51-66 of the source);
- `levelTickHook` — the tick-start budget reset (`LevelTickHook`, lines 70-86);
- `pendingTicksHook` — the drain interceptor (`PendingTicksHook`, lines 88-143).

The shared mutable state (the atomic budget counter and the three atomic
stats counters) is modelled as an explicit `GlobalState` record threaded
through the hooks.  The compare-exchange retry loop of the interceptor is
modelled at its linearization point: each successful `compare_exchange_weak`
subtracts `allowed = min max remaining` at the value `remaining` it observed,
so a (possibly concurrent) execution is equivalent to a sequence of
`decideCall` steps, one per successful consumption, which is the model used
for the cross-call budget claims.
-/

namespace PendingTickOptimizer

/-- Config, as used by the .cpp (the hook code reads `config.enabled`,
`config.budgetEnabled`, `config.budgetPerTick`, `config.globalBudgetPerTick`).
Integer fields are C `int`; the values live well inside 32 bits so they are
modelled as unbounded `Int`. -/
structure Config where
  enabled : Bool
  debug : Bool
  statsIntervalSec : Int
  budgetEnabled : Bool
  budgetPerTick : Int
  globalBudgetPerTick : Int
  deriving Repr, DecidableEq

/-- One entry of `BlockTickingQueue::TickDataSet` as the classifier reads it:
the removed flag `mIsRemoved` and the block pointer `mData.mBlock`, which may
be null (`none`); a non-null block is represented by its `getTypeName()`
string. -/
structure BlockTick where
  mIsRemoved : Bool
  mBlock : Option String
  deriving Repr, DecidableEq

/-- The throttle-target name test inlined in `isPortalOnlyQueue`. -/
def isPortalName (name : String) : Bool :=
  name == "minecraft:portal" || name == "minecraft:end_portal" ||
    name == "minecraft:end_gateway"

/-- Loop body of `isPortalOnlyQueue`, with the `hasPortal` flag made an
explicit accumulator: removed entries and null-block entries are skipped
with `continue`; a live portal-named block sets the flag; any other live
block returns `false` immediately. -/
def isPortalOnlyQueueGo (hasPortal : Bool) : List BlockTick → Bool
  | [] => hasPortal
  | bt :: rest =>
    if bt.mIsRemoved then isPortalOnlyQueueGo hasPortal rest
    else
      match bt.mBlock with
      | none => isPortalOnlyQueueGo hasPortal rest
      | some b =>
        if isPortalName b then isPortalOnlyQueueGo true rest
        else false

/-- Function `isPortalOnlyQueue` (source lines 51-66): `hasPortal` starts `false`. -/
def isPortalOnlyQueue (q : List BlockTick) : Bool :=
  isPortalOnlyQueueGo false q

/-- The shared mutable globals of the plugin: the tick budget
`gTickBudgetRemaining` (`std::atomic<int>`) and the three stats counters
(`std::atomic<uint64_t>`; they are only ever incremented between resets, so
`Nat` models them). -/
structure GlobalState where
  gTickBudgetRemaining : Int
  totalCallCount : Nat
  totalQueued : Nat
  totalCapped : Nat
  deriving Repr, DecidableEq

/-- Hook `LevelTickHook` (source lines 70-86): on tick start, when the plugin is
enabled and budgeting is on, store `max(1, globalBudgetPerTick)` into the
budget; otherwise leave state untouched.  (`origin()` has no modelled
effect on this state.) -/
def levelTickHook (pluginEnabled : Bool) (cfg : Config) (s : GlobalState) :
    GlobalState :=
  if pluginEnabled && cfg.enabled && cfg.budgetEnabled then
    { s with gTickBudgetRemaining := max 1 cfg.globalBudgetPerTick }
  else s

/-- The per-call clamp of the interceptor (source lines 111-113):
`if (max > config.budgetPerTick) max = config.budgetPerTick;`. -/
def clampCall (cfg : Config) (max0 : Int) : Int :=
  if max0 > cfg.budgetPerTick then cfg.budgetPerTick else max0

/-- The decision the throttle engine produces for one call. -/
structure Decision where
  allowed : Int
  skip : Bool
  deriving Repr, DecidableEq

/-- One throttle decision (source lines 111-134) at its linearization point:
clamp the request, observe the budget; if it is `≤ 0` skip; otherwise allow
`min max remaining` and subtract it from the budget.  Returns the decision
and the new budget value. -/
def decideCall (cfg : Config) (max0 : Int) (remaining : Int) :
    Decision × Int :=
  let maxC := clampCall cfg max0
  if remaining ≤ 0 then ({ allowed := 0, skip := true }, remaining)
  else ({ allowed := min maxC remaining, skip := false },
        remaining - min maxC remaining)

/-- What the interceptor does with the original drain implementation:
either it calls `origin(region, until, count, instaTick)` and returns that
result, or it returns `false` without calling `origin` at all.  `R` and `T`
are the (opaque) types of the `BlockSource&` and `Tick const&` arguments. -/
inductive DrainAction (R T : Type) where
  | callOrigin (region : R) (until_ : T) (count : Int) (instaTick : Bool)
  | returnFalse
  deriving Repr, DecidableEq

/-- Hook `PendingTicksHook` (source lines 88-143).  Follows the source exactly:
passthrough when the plugin/budget flags are off or the queue is not
portal-only; otherwise count the call, clamp the request, run the budget
decision; on skip increment `totalCapped` and return `false` without calling
`origin`; otherwise record the queue size, mark the call capped when
`allowed < max`, and execute `origin(region, until, max, allowed)` — note
the source passes the clamped `max` in the `int` count slot and the `int`
`allowed` in the `bool instaTick_` slot (C++ converts it to `allowed != 0`). -/
def pendingTicksHook {R T : Type} (pluginEnabled : Bool) (cfg : Config)
    (queue : List BlockTick) (region : R) (until_ : T) (max0 : Int)
    (instaTick : Bool) (s : GlobalState) : GlobalState × DrainAction R T :=
  if !(pluginEnabled && cfg.enabled && cfg.budgetEnabled) then
    (s, .callOrigin region until_ max0 instaTick)
  else if !isPortalOnlyQueue queue then
    (s, .callOrigin region until_ max0 instaTick)
  else
    let s1 := { s with totalCallCount := s.totalCallCount + 1 }
    let maxC := clampCall cfg max0
    let dec := decideCall cfg max0 s1.gTickBudgetRemaining
    if dec.1.skip then
      ({ s1 with totalCapped := s1.totalCapped + 1 }, .returnFalse)
    else
      let s2 := { s1 with gTickBudgetRemaining := dec.2 }
      let s3 := { s2 with totalQueued := s2.totalQueued + queue.length }
      let s4 :=
        if dec.1.allowed < maxC then
          { s3 with totalCapped := s3.totalCapped + 1 }
        else s3
      (s4, .callOrigin region until_ maxC (dec.1.allowed != 0))

/-- A sequence of throttle decisions within one tick (no reset in between):
fold `decideCall` over the list of requested counts, collecting the
decisions and the final budget. -/
def runDecides (cfg : Config) (remaining : Int) :
    List Int → List Decision × Int
  | [] => ([], remaining)
  | m :: ms =>
    let step := decideCall cfg m remaining
    let rest := runDecides cfg step.2 ms
    (step.1 :: rest.1, rest.2)

/-- Host-visible events that touch the budget: a tick-start signal or an
(eligible) drain decision with a requested count. -/
inductive TickEvent where
  | tickStart
  | drain (max0 : Int)
  deriving Repr, DecidableEq

/-- Run a sequence of tick-start resets and throttle decisions over the
budget counter. -/
def runEvents (pluginEnabled : Bool) (cfg : Config) (remaining : Int) :
    List TickEvent → Int
  | [] => remaining
  | TickEvent.tickStart :: es =>
    runEvents pluginEnabled cfg
      (if pluginEnabled && cfg.enabled && cfg.budgetEnabled then
        max 1 cfg.globalBudgetPerTick
      else remaining) es
  | TickEvent.drain m :: es =>
    runEvents pluginEnabled cfg (decideCall cfg m remaining).2 es


/-! ### Example blocks, configurations and states used by concrete claims -/

/-- A live `minecraft:portal` tick entry. -/
def portalTick : BlockTick := { mIsRemoved := false, mBlock := some "minecraft:portal" }

/-- A live `minecraft:end_portal` tick entry. -/
def endPortalTick : BlockTick := { mIsRemoved := false, mBlock := some "minecraft:end_portal" }

/-- A live `minecraft:redstone_wire` tick entry (not a throttle target). -/
def redstoneTick : BlockTick := { mIsRemoved := false, mBlock := some "minecraft:redstone_wire" }

/-- A live entry whose block pointer is null. -/
def nullBlockTick : BlockTick := { mIsRemoved := false, mBlock := none }

/-- A fully-enabled configuration with per-call cap 40 and global cap 100. -/
def cfgStd : Config where
  enabled := true
  debug := false
  statsIntervalSec := 5
  budgetEnabled := true
  budgetPerTick := 40
  globalBudgetPerTick := 100

/-- Globals with 20 budget units left and zeroed stats counters. -/
def stateBudget20 : GlobalState where
  gTickBudgetRemaining := 20
  totalCallCount := 0
  totalQueued := 0
  totalCapped := 0

/-- Globals with an exhausted budget and zeroed stats counters. -/
def stateBudget0 : GlobalState where
  gTickBudgetRemaining := 0
  totalCallCount := 0
  totalQueued := 0
  totalCapped := 0

/-! ### Helper lemmas about the throttle decision -/

/-- The amount a decision grants equals the amount it removes from the
budget. -/
theorem decideCall_allowed_eq (cfg : Config) (m b : Int) :
    (decideCall cfg m b).1.allowed = b - (decideCall cfg m b).2 := by
  unfold decideCall
  split_ifs with hb <;> simp

/-- A decision never drives a non-negative budget negative. -/
theorem decideCall_snd_nonneg (cfg : Config) (m b : Int) (h : 0 ≤ b) :
    0 ≤ (decideCall cfg m b).2 := by
  unfold decideCall
  split_ifs with hb
  · exact h
  · simp only
    omega

/-- With a non-positive budget, a decision is a pure skip: nothing granted,
budget untouched. -/
theorem decideCall_of_nonpos (cfg : Config) (m b : Int) (h : b ≤ 0) :
    decideCall cfg m b = ({ allowed := 0, skip := true }, b) := by
  unfold decideCall
  simp [h]

/-- Total granted over a decision sequence equals initial minus final
budget. -/
theorem runDecides_sum_eq (cfg : Config) (ms : List Int) :
    ∀ b : Int, (((runDecides cfg b ms).1).map Decision.allowed).sum
      = b - (runDecides cfg b ms).2 := by
  induction ms with
  | nil => intro b; simp [runDecides]
  | cons m ms ih =>
    intro b
    simp only [runDecides, List.map_cons, List.sum_cons, ih]
    rw [decideCall_allowed_eq]
    ring

/-- A decision sequence keeps a non-negative budget non-negative. -/
theorem runDecides_snd_nonneg (cfg : Config) (ms : List Int) :
    ∀ b : Int, 0 ≤ b → 0 ≤ (runDecides cfg b ms).2 := by
  induction ms with
  | nil => intro b hb; simpa [runDecides] using hb
  | cons m ms ih =>
    intro b hb
    simpa [runDecides] using ih _ (decideCall_snd_nonneg cfg m b hb)

/-! ### Claim theorems: budget invariants -/

/-- C2: for any sequence of throttle decisions within one tick whose initial
budget after the tick-start reset is `B = max 1 globalBudgetPerTick`, the sum
of all `allowed` values granted never exceeds `B`. -/
theorem c2_no_overallocation (cfg : Config) (ms : List Int) :
    (((runDecides cfg (max 1 cfg.globalBudgetPerTick) ms).1).map
        Decision.allowed).sum
      ≤ max 1 cfg.globalBudgetPerTick := by
  rw [runDecides_sum_eq]
  have h := runDecides_snd_nonneg cfg ms (max 1 cfg.globalBudgetPerTick)
    (by positivity)
  omega

/-- C3: the Global Tick Budget is never observed negative: every decision
clamps consumption to the observed remaining value, so after any sequence of
tick-start resets and decisions the budget stays `≥ 0` whenever it started
`≥ 0` (and every reset that fires stores `max 1 globalBudgetPerTick ≥ 0`). -/
theorem c3_budget_never_negative (pluginEnabled : Bool) (cfg : Config)
    (es : List TickEvent) (b : Int) (hb : 0 ≤ b) :
    0 ≤ runEvents pluginEnabled cfg b es := by
  induction es generalizing b with
  | nil => simpa [runEvents] using hb
  | cons e es ih =>
    cases e with
    | tickStart =>
      simp only [runEvents]
      apply ih
      split_ifs with h
      · positivity
      · exact hb
    | drain m =>
      simpa [runEvents] using ih _ (decideCall_snd_nonneg cfg m b hb)

/-- Witness for C3 at a concrete trace. -/
theorem c3_budget_never_negative_witness :
    0 ≤ runEvents true cfgStd 0
      [TickEvent.tickStart, TickEvent.drain 50, TickEvent.drain 50,
        TickEvent.drain 50, TickEvent.drain 50] :=
  c3_budget_never_negative true cfgStd _ 0 (by decide)

/-- C5: once the budget is exhausted (`≤ 0`) within a tick, every subsequent
decision in that tick (no reset in between) is a full skip: `skip = true`,
`allowed = 0`, and the budget value is left unchanged. -/
theorem c5_starvation_safety (cfg : Config) (ms : List Int) (b : Int)
    (hb : b ≤ 0) :
    (runDecides cfg b ms).1
        = List.replicate ms.length { allowed := 0, skip := true } ∧
      (runDecides cfg b ms).2 = b := by
  induction ms with
  | nil => simp [runDecides]
  | cons m ms ih =>
    simp only [runDecides, decideCall_of_nonpos cfg m b hb,
      List.length_cons, List.replicate_succ]
    exact ⟨by rw [ih.1], ih.2⟩

/-- Witness for C5 at a concrete exhausted-budget trace. -/
theorem c5_starvation_safety_witness :
    (runDecides cfgStd 0 [50, 7, 3]).1
        = List.replicate 3 { allowed := 0, skip := true } ∧
      (runDecides cfgStd 0 [50, 7, 3]).2 = 0 :=
  c5_starvation_safety cfgStd [50, 7, 3] 0 (by decide)

/-! ### Classifier correctness -/

/-- A live (non-removed) entry carrying a portal-named block. -/
def IsLivePortal (bt : BlockTick) : Prop :=
  bt.mIsRemoved = false ∧ ∃ b, bt.mBlock = some b ∧ isPortalName b = true

/-- Every live entry with a non-null block is portal-named. -/
def AllLivePortal (q : List BlockTick) : Prop :=
  ∀ bt ∈ q, bt.mIsRemoved = false → ∀ b, bt.mBlock = some b →
    isPortalName b = true

/-- Characterization of the classifier loop: it answers `true` exactly when
every live non-null entry is portal-named and either the flag was already set
or some live portal-named entry occurs in the remaining queue. -/
theorem isPortalOnlyQueueGo_eq_true (q : List BlockTick) : ∀ acc : Bool,
    (isPortalOnlyQueueGo acc q = true ↔
      AllLivePortal q ∧ (acc = true ∨ ∃ bt ∈ q, IsLivePortal bt)) := by
  induction q with
  | nil => intro acc; simp [isPortalOnlyQueueGo, AllLivePortal]
  | cons bt rest ih =>
    intro acc
    by_cases hrem : bt.mIsRemoved
    · simp only [isPortalOnlyQueueGo, hrem, if_true, ih,
        AllLivePortal, IsLivePortal, List.mem_cons]
      constructor
      · rintro ⟨hall, hex⟩
        refine ⟨?_, ?_⟩
        · rintro x (rfl | hx)
          · intro hl; simp [hrem] at hl
          · exact hall x hx
        · rcases hex with h | ⟨x, hx, hl⟩
          · exact Or.inl h
          · exact Or.inr ⟨x, Or.inr hx, hl⟩
      · rintro ⟨hall, hex⟩
        refine ⟨fun x hx => hall x (Or.inr hx), ?_⟩
        rcases hex with h | ⟨x, hx, hl⟩
        · exact Or.inl h
        · rcases hx with rfl | hx
          · rw [hrem] at hl; exact absurd hl.1 (by simp)
          · exact Or.inr ⟨x, hx, hl⟩
    · rw [Bool.not_eq_true] at hrem
      cases hblk : bt.mBlock with
      | none =>
        simp only [isPortalOnlyQueueGo, hrem, Bool.false_eq_true, if_false,
          hblk, ih, AllLivePortal, IsLivePortal, List.mem_cons]
        constructor
        · rintro ⟨hall, hex⟩
          refine ⟨?_, ?_⟩
          · rintro x (rfl | hx)
            · intro _ b hb; rw [hblk] at hb; exact absurd hb (by simp)
            · exact hall x hx
          · rcases hex with h | ⟨x, hx, hl⟩
            · exact Or.inl h
            · exact Or.inr ⟨x, Or.inr hx, hl⟩
        · rintro ⟨hall, hex⟩
          refine ⟨fun x hx => hall x (Or.inr hx), ?_⟩
          rcases hex with h | ⟨x, hx, hl⟩
          · exact Or.inl h
          · rcases hx with rfl | hx
            · rcases hl.2 with ⟨b, hb, _⟩; rw [hblk] at hb
              exact absurd hb (by simp)
            · exact Or.inr ⟨x, hx, hl⟩
      | some b =>
        by_cases hp : isPortalName b
        · simp only [isPortalOnlyQueueGo, hrem, Bool.false_eq_true, if_false,
            hblk, hp, if_true, ih, AllLivePortal, IsLivePortal, List.mem_cons]
          constructor
          · rintro ⟨hall, _⟩
            refine ⟨?_, Or.inr ⟨bt, Or.inl rfl, hrem, b, hblk, hp⟩⟩
            rintro x (rfl | hx)
            · intro _ c hc; rw [hblk] at hc; injection hc with h
              rw [← h]; exact hp
            · exact hall x hx
          · rintro ⟨hall, _⟩
            exact ⟨fun x hx => hall x (Or.inr hx), Or.inl trivial⟩
        · simp only [isPortalOnlyQueueGo, hrem, Bool.false_eq_true, if_false,
            hblk, hp, if_false, AllLivePortal, IsLivePortal, List.mem_cons]
          constructor
          · intro h; exact absurd h (by simp)
          · rintro ⟨hall, _⟩
            exact absurd (hall bt (Or.inl rfl) hrem b hblk) hp

/-- C6: for queues in which every live entry has a non-null block, the
classifier answers `Eligible` (`true`) exactly when the queue has at least
one live entry and every live entry is portal-named; in particular
`{portal, portal, end_portal}` is eligible, `{portal, redstone_wire}` and the
empty queue are passthrough. -/
theorem c6_classifier_correct :
    (∀ q : List BlockTick,
      (∀ bt ∈ q, bt.mIsRemoved = false → bt.mBlock.isSome = true) →
      (isPortalOnlyQueue q = true ↔
        ((∃ bt ∈ q, bt.mIsRemoved = false) ∧ AllLivePortal q)))
    ∧ isPortalOnlyQueue [portalTick, portalTick, endPortalTick] = true
    ∧ isPortalOnlyQueue [portalTick, redstoneTick] = false
    ∧ isPortalOnlyQueue [] = false := by
  refine ⟨?_, by decide, by decide, by decide⟩
  intro q hlive
  rw [isPortalOnlyQueue, isPortalOnlyQueueGo_eq_true]
  constructor
  · rintro ⟨hall, hex⟩
    rcases hex with h | ⟨x, hx, hl⟩
    · exact absurd h (by simp)
    · exact ⟨⟨x, hx, hl.1⟩, hall⟩
  · rintro ⟨⟨x, hx, hlx⟩, hall⟩
    refine ⟨hall, Or.inr ⟨x, hx, hlx, ?_⟩⟩
    rcases Option.isSome_iff_exists.mp (hlive x hx hlx) with ⟨b, hb⟩
    exact ⟨b, hb, hall x hx hlx b hb⟩

/-- Witness for C6: the characterization instantiated at a concrete queue. -/
theorem c6_classifier_correct_witness :
    isPortalOnlyQueue [portalTick, endPortalTick] = true ↔
      ((∃ bt ∈ [portalTick, endPortalTick], bt.mIsRemoved = false) ∧
        AllLivePortal [portalTick, endPortalTick]) :=
  c6_classifier_correct.1 [portalTick, endPortalTick] (by decide)

/-- A removed entry or a live null-block entry is skipped by the classifier
loop without any effect. -/
theorem isPortalOnlyQueueGo_skip (acc : Bool) (bt : BlockTick)
    (h : bt.mIsRemoved = true ∨ bt.mBlock = none) (q : List BlockTick) :
    isPortalOnlyQueueGo acc (bt :: q) = isPortalOnlyQueueGo acc q := by
  rcases h with h | h
  · simp [isPortalOnlyQueueGo, h]
  · by_cases hr : bt.mIsRemoved <;> simp [isPortalOnlyQueueGo, hr, h]

/-- Deleting a skipped entry (removed, or live with null block) anywhere in
the queue does not change the classifier loop. -/
theorem isPortalOnlyQueueGo_append_skip (bt : BlockTick)
    (h : bt.mIsRemoved = true ∨ bt.mBlock = none) (q1 : List BlockTick) :
    ∀ (acc : Bool) (q2 : List BlockTick),
      isPortalOnlyQueueGo acc (q1 ++ bt :: q2)
        = isPortalOnlyQueueGo acc (q1 ++ q2) := by
  induction q1 with
  | nil => intro acc q2; exact isPortalOnlyQueueGo_skip acc bt h q2
  | cons x rest ih =>
    intro acc q2
    by_cases hr : x.mIsRemoved
    · simp [isPortalOnlyQueueGo, hr, ih]
    · cases hb : x.mBlock with
      | none => simp [isPortalOnlyQueueGo, hr, hb, ih]
      | some b =>
        by_cases hp : isPortalName b <;>
          simp [isPortalOnlyQueueGo, hr, hb, hp, ih]

/-- A queue of nothing but skipped entries leaves the flag untouched. -/
theorem isPortalOnlyQueueGo_all_skip (q : List BlockTick)
    (h : ∀ bt ∈ q, bt.mIsRemoved = true ∨ bt.mBlock = none) :
    ∀ acc : Bool, isPortalOnlyQueueGo acc q = acc := by
  induction q with
  | nil => intro acc; rfl
  | cons bt rest ih =>
    intro acc
    rw [isPortalOnlyQueueGo_skip acc bt (h bt (List.mem_cons_self bt rest))]
    exact ih (fun x hx => h x (List.mem_cons_of_mem bt hx)) acc

/-- C9: a live entry with a null block pointer is ignored exactly like a
removed entry: deleting either kind from a queue never changes the
classification, and a queue whose entries all carry null blocks classifies
passthrough (`false`). -/
theorem c9_null_block_ignored :
    (∀ q1 q2 : List BlockTick,
        isPortalOnlyQueue (q1 ++ nullBlockTick :: q2)
          = isPortalOnlyQueue (q1 ++ q2))
    ∧ (∀ (q1 q2 : List BlockTick) (bt : BlockTick), bt.mIsRemoved = true →
        isPortalOnlyQueue (q1 ++ bt :: q2) = isPortalOnlyQueue (q1 ++ q2))
    ∧ (∀ q : List BlockTick, (∀ bt ∈ q, bt.mBlock = none) →
        isPortalOnlyQueue q = false) := by
  refine ⟨?_, ?_, ?_⟩
  · intro q1 q2
    exact isPortalOnlyQueueGo_append_skip nullBlockTick (Or.inr rfl) q1 false q2
  · intro q1 q2 bt hbt
    exact isPortalOnlyQueueGo_append_skip bt (Or.inl hbt) q1 false q2
  · intro q h
    exact isPortalOnlyQueueGo_all_skip q (fun bt hbt => Or.inr (h bt hbt)) false

/-- Witness for C9 at concrete queues. -/
theorem c9_null_block_ignored_witness :
    isPortalOnlyQueue [portalTick, nullBlockTick, endPortalTick]
        = isPortalOnlyQueue [portalTick, endPortalTick]
    ∧ isPortalOnlyQueue
        [portalTick, { mIsRemoved := true, mBlock := some "minecraft:stone" }]
        = isPortalOnlyQueue [portalTick]
    ∧ isPortalOnlyQueue [nullBlockTick, nullBlockTick] = false :=
  ⟨c9_null_block_ignored.1 [portalTick] [endPortalTick],
   c9_null_block_ignored.2.1 [portalTick] [] _ rfl,
   c9_null_block_ignored.2.2 [nullBlockTick, nullBlockTick] (by decide)⟩

/-! ### Reset, cap coercion, and the forwarding bug -/

/-- C8: the tick-start reset is idempotent: with the plugin enabled and
budgeting on, two consecutive tick-start signals with no decision in between
leave the budget at `max 1 globalBudgetPerTick`. -/
theorem c8_reset_idempotent (cfg : Config) (s : GlobalState)
    (hen : cfg.enabled = true) (hbe : cfg.budgetEnabled = true) :
    (levelTickHook true cfg (levelTickHook true cfg s)).gTickBudgetRemaining
      = max 1 cfg.globalBudgetPerTick := by
  simp [levelTickHook, hen, hbe]

/-- Witness for C8 at a concrete configuration and state. -/
theorem c8_reset_idempotent_witness :
    (levelTickHook true cfgStd
        (levelTickHook true cfgStd stateBudget20)).gTickBudgetRemaining
      = max 1 cfgStd.globalBudgetPerTick :=
  c8_reset_idempotent cfgStd stateBudget20 rfl rfl

/-- A fully-enabled configuration whose per-call cap is zero. -/
def cfgZeroPerCall : Config where
  enabled := true
  debug := false
  statsIntervalSec := 5
  budgetEnabled := true
  budgetPerTick := 0
  globalBudgetPerTick := 100

/-- C4 counterexample: with configured per-call cap `budgetPerTick = 0`, a
call requesting 5 items against a budget of 10 is clamped to 0 and granted
0 items — the per-call cap is applied without being coerced to `≥ 1`,
contradicting the claim that a non-positive configured cap still yields at
least one unit of throughput per call. -/
theorem c4_per_call_cap_not_coerced :
    clampCall cfgZeroPerCall 5 = 0
    ∧ (decideCall cfgZeroPerCall 5 10).1.allowed = 0
    ∧ ¬(1 ≤ (decideCall cfgZeroPerCall 5 10).1.allowed) := by
  refine ⟨rfl, rfl, by decide⟩

/-- C4 amended: only the per-tick global cap is coerced to `≥ 1` when
applied (the reset stores `max 1 globalBudgetPerTick`); the per-call cap is
applied as configured, so a non-positive `budgetPerTick` clamps any larger
request down to that non-positive value and the call is granted at most 0
items. -/
theorem c4_cap_coercion (cfg : Config) (s : GlobalState) (m b : Int)
    (hen : cfg.enabled = true) (hbe : cfg.budgetEnabled = true)
    (hcap : cfg.budgetPerTick ≤ 0) (hm : cfg.budgetPerTick < m) (hb : 0 < b) :
    1 ≤ (levelTickHook true cfg s).gTickBudgetRemaining
    ∧ clampCall cfg m = cfg.budgetPerTick
    ∧ (decideCall cfg m b).1.allowed = cfg.budgetPerTick := by
  refine ⟨?_, ?_, ?_⟩
  · simp [levelTickHook, hen, hbe]
  · simp [clampCall, hm]
  · simp only [decideCall, clampCall, hm, if_true, if_pos]
    have hnb : ¬b ≤ 0 := not_le.mpr hb
    simp only [hnb, if_false]
    simp only [min_eq_left (le_trans hcap (le_of_lt hb))]

/-- Witness for the amended C4 at concrete values. -/
theorem c4_cap_coercion_witness :
    1 ≤ (levelTickHook true cfgZeroPerCall stateBudget20).gTickBudgetRemaining
    ∧ clampCall cfgZeroPerCall 5 = cfgZeroPerCall.budgetPerTick
    ∧ (decideCall cfgZeroPerCall 5 10).1.allowed
        = cfgZeroPerCall.budgetPerTick :=
  c4_cap_coercion cfgZeroPerCall stateBudget20 5 10 rfl rfl (by decide)
    (by decide) (by decide)

/-- C1: at a concrete eligible call (per-call cap 40, remaining budget 20,
request 50, `instaTick_ = false`) the interceptor hands the original
implementation the clamped request `40` in the `int` count slot and
`allowed != 0 = true` in the `bool instaTick_` slot, although the budget
decision granted only `allowed = 20`; the call the claim requires —
`origin(region, until, 20, false)` — is a different call.  (The source line
is `return origin(region, until, max, allowed);`, which puts `max` in the
count position and the `int` `allowed` in the `bool` position.) -/
theorem c1_forwarded_arguments_diverge :
    (pendingTicksHook true cfgStd [portalTick] () () 50 false
        stateBudget20).2
      = DrainAction.callOrigin () () 40 true
    ∧ (decideCall cfgStd 50 stateBudget20.gTickBudgetRemaining).1.allowed = 20
    ∧ DrainAction.callOrigin () () 40 true
        ≠ DrainAction.callOrigin () () 20 false := by
  exact ⟨by decide, by decide, by decide⟩

/-- C10 counterexample: at an eligible call with exhausted budget the
interceptor increments `totalCallCount` as well, so "only the cappedCount
statistic is incremented" is false. -/
theorem c10_callcount_also_incremented :
    (pendingTicksHook true cfgStd [portalTick] () () 50 false
        stateBudget0).1.totalCallCount
      ≠ stateBudget0.totalCallCount := by decide

/-- C10 amended: for every eligible call observed with budget `≤ 0` the
interceptor returns `false` without invoking the original implementation,
leaves the budget and `totalQueued` unchanged, and increments both
`totalCallCount` and `totalCapped` by one. -/
theorem c10_exhausted_budget_skip (cfg : Config) (q : List BlockTick)
    (m : Int) (it : Bool) (s : GlobalState)
    (hen : cfg.enabled = true) (hbe : cfg.budgetEnabled = true)
    (helig : isPortalOnlyQueue q = true)
    (hb : s.gTickBudgetRemaining ≤ 0) :
    pendingTicksHook true cfg q () () m it s
      = ({ s with totalCallCount := s.totalCallCount + 1,
                  totalCapped := s.totalCapped + 1 },
          DrainAction.returnFalse) := by
  simp [pendingTicksHook, hen, hbe, helig,
    decideCall_of_nonpos cfg m s.gTickBudgetRemaining hb]

/-- Witness for the amended C10 at a concrete exhausted-budget call. -/
theorem c10_exhausted_budget_skip_witness :
    pendingTicksHook true cfgStd [portalTick] () () 50 false stateBudget0
      = ({ stateBudget0 with totalCallCount := stateBudget0.totalCallCount + 1,
                             totalCapped := stateBudget0.totalCapped + 1 },
          DrainAction.returnFalse) :=
  c10_exhausted_budget_skip cfgStd [portalTick] 50 false stateBudget0
    rfl rfl (by decide) (by decide)

/-- C7 counterexample: a skipped eligible call does not add its queue-size
sample to `totalQueued` (the skip path returns before the sample is added),
so the claim that the queue-size sample is added to queuedSum even when the
call is skipped is false. -/
theorem c7_skipped_sample_not_added :
    (pendingTicksHook true cfgStd [portalTick] () () 50 false
        stateBudget0).1.totalQueued
      ≠ stateBudget0.totalQueued + ([portalTick] : List BlockTick).length := by
  decide

/-- C7 amended: an eligible call increments `totalCallCount` by one; a
skipped call leaves `totalQueued` unchanged and increments `totalCapped`; a
granted call adds the queue size to `totalQueued` and increments
`totalCapped` exactly when `allowed` is below the clamped request; a
passthrough call changes nothing. -/
theorem c7_stats_recording (cfg : Config) (q : List BlockTick) (m : Int)
    (it : Bool) (s : GlobalState)
    (hen : cfg.enabled = true) (hbe : cfg.budgetEnabled = true) :
    if isPortalOnlyQueue q then
      (pendingTicksHook true cfg q () () m it s).1.totalCallCount
          = s.totalCallCount + 1
      ∧ (if s.gTickBudgetRemaining ≤ 0 then
          (pendingTicksHook true cfg q () () m it s).1.totalQueued
              = s.totalQueued
          ∧ (pendingTicksHook true cfg q () () m it s).1.totalCapped
              = s.totalCapped + 1
        else
          (pendingTicksHook true cfg q () () m it s).1.totalQueued
              = s.totalQueued + q.length
          ∧ (pendingTicksHook true cfg q () () m it s).1.totalCapped
              = s.totalCapped +
                  (if (decideCall cfg m s.gTickBudgetRemaining).1.allowed
                      < clampCall cfg m then 1 else 0))
    else (pendingTicksHook (R := Unit) (T := Unit) true cfg q () () m it s).1
        = s := by
  by_cases helig : isPortalOnlyQueue q
  · simp only [helig, if_true]
    by_cases hb : s.gTickBudgetRemaining ≤ 0
    · simp [pendingTicksHook, hen, hbe, helig, hb,
        decideCall_of_nonpos cfg m s.gTickBudgetRemaining hb]
    · simp only [pendingTicksHook, hen, hbe, helig, hb, decideCall, clampCall,
        Bool.and_self, Bool.not_true, Bool.false_eq_true, if_false, if_true,
        Bool.true_and, Bool.not_false]
      split_ifs <;> simp_all
  · simp [pendingTicksHook, hen, hbe, helig]

/-- Witness for the amended C7 at a concrete granted call. -/
theorem c7_stats_recording_witness :
    (pendingTicksHook true cfgStd [portalTick] () () 50 false
        stateBudget20).1.totalCallCount
      = stateBudget20.totalCallCount + 1 := by
  have h := c7_stats_recording cfgStd [portalTick] 50 false stateBudget20
    rfl rfl
  simp only [show isPortalOnlyQueue [portalTick] = true from by decide,
    if_true] at h
  exact h.1

end PendingTickOptimizer
